import Mathlib

/-!
Shallow embedding of src/ziwei-saint/src/storage/PersistentStorage.ts

This file models the storage engine of the repository (the `PersistentStorage`
class) and proves properties of it.

Modelling conventions, chosen once and used throughout:

* Storable values (`value: any` in the source) are identified with their JSON
  serialization: `Val := String`, where the string is the `JSON.stringify`
  image of the value.  `JSON.stringify` is injective on storable (JSON
  round-trippable) values, so this identification loses nothing; under it,
  `JSON.stringify` is the identity and `JSON.parse` its inverse.
  Consequently `JSON.stringify(value).length` is `v.length`.

* Timestamps (`Date.now()`, `updatedAt.getTime()`) are integers (milliseconds);
  every operation takes the current time `now : Int` as an explicit argument.
  The `ttl` option is an `Option Int` like the source's optional number.

* Sizes.  The source computes `sizeInKB = serializedValue.length / 1024` and
  accumulates these in the float `sizeTracker` (KB).  All these quantities are
  integer multiples of 1/1024 KB, i.e. of one byte, and the float arithmetic on
  them is exact for all realistic magnitudes, so we carry the *scaled* value
  `sizeTracker * 1024 : Nat` (bytes).  Under this scaling:
  - the limit `maxStorageSize * 1024` KB becomes `maxStorageSize * 1048576`;
  - the eviction target `maxStorageSize * 0.9 * 1024` KB becomes the exact
    rational comparison `10 * tracker > 9 * maxStorageSize * 1048576`
    (the one place the binary double `0.9` differs from 9/10 is a relative
    error of 2^-54, far below one byte for any configured size);
  - `Math.max(0, tracker - size)` becomes truncated `Nat` subtraction.

* The `aes192` cipher built by `crypto.createCipher` with the fixed password
  derived from `'ziwei-saint-storage-key'` is a *deterministic* injective
  function of the serialized plaintext (`createCipher` derives key and IV from
  the password alone; the random `iv` the source generates is stored but never
  used for decryption).  We model the hex-encoded ciphertext abstractly as an
  injective encoding `cipherEncrypt` with non-empty output and a partial
  inverse `cipherDecrypt` that fails on inputs outside the image (modelling the
  exceptions `decipher.final` / `JSON.parse` throw on tampered input).  The
  stored `iv` hex string is modelled as a fixed 32-character string: it is
  random in the source but its only observable role is its length in
  `JSON.stringify` and its truthiness, both independent of its bits.

* The JS `Map` is an insertion-ordered association list with unique keys:
  `mapGet` finds the entry, `mapSet` replaces in place or appends, `mapDelete`
  removes the entry.  Well-formed states have pairwise-distinct keys
  (`StorageWF`); every state the class can actually build is well-formed.

* `generateId()` (wall clock + `Math.random`) is passed in as an explicit
  `newId : String` argument.

* `async`/`await`: the replication helpers can neither fail nor touch the
  store - they only update per-node bookkeeping - and every store mutation in
  an operation happens before the first `await`, so each public operation is
  modelled as a pure state transformer.  Timers (`syncTimer`, `backupTimer`)
  and `console` logging have no effect on the store and are omitted.
-/

namespace PersistentStorage

/-- Serialized storable values; see the header: a `Val` is the `JSON.stringify`
image of the stored `any` value. -/
abbrev Val := String

/-- The `value` field of a `StoredObject`: either the plain value (encryption
disabled, or the fallback paths that store data unencrypted), or the
`{ encrypted, iv }` object produced by `encryptData`. -/
inductive StoredValue where
  | raw (v : Val)
  | enc (encrypted : String) (iv : String)
deriving DecidableEq, Repr

/-- Model of `interface StoredObject` (source lines 6-15), with times in ms. -/
structure StoredObject where
  id : String
  key : String
  value : StoredValue
  createdAt : Int
  updatedAt : Int
  version : Nat
  tags : List String
  ttl : Option Int
deriving DecidableEq, Repr

/-- Model of `interface StorageConfig` (source lines 17-24).  `maxStorageSize` is
in MB as in the source. -/
structure StorageConfig where
  enableReplication : Bool
  replicationFactor : Nat
  syncInterval : Nat
  maxStorageSize : Nat
  enableEncryption : Bool
  backupInterval : Nat
deriving DecidableEq, Repr

inductive NodeStatus where
  | online
  | offline
  | syncing
deriving DecidableEq, Repr

/-- Model of `interface ReplicationNode` (source lines 26-33).  `storageUsed` (MB,
float, incremented by `0.1`) is carried scaled by 10 so that the increment is
the integer 1. -/
structure ReplicationNode where
  id : String
  address : String
  port : Nat
  status : NodeStatus
  lastSync : Int
  storageUsed : Nat
deriving DecidableEq, Repr

/-- The mutable state of a `PersistentStorage` instance: the `store` map, the
`sizeTracker` counter (scaled to bytes, see the header) and the
`replicationNodes` list. -/
structure StorageState where
  store : List (String × StoredObject)
  sizeTracker : Nat
  nodes : List ReplicationNode
deriving DecidableEq, Repr

/-- Model of `Map.prototype.get`: the entry with this key, if any. -/
def mapGet (k : String) : List (String × StoredObject) → Option StoredObject
  | [] => none
  | e :: rest => if e.1 = k then some e.2 else mapGet k rest

/-- Model of `Map.prototype.set`: replace the entry in place if the key is present,
otherwise append (JS maps keep insertion order). -/
def mapSet (k : String) (v : StoredObject) : List (String × StoredObject) → List (String × StoredObject)
  | [] => [(k, v)]
  | e :: rest => if e.1 = k then (k, v) :: rest else e :: mapSet k v rest

/-- Model of `Map.prototype.delete`: remove the entry with this key. -/
def mapDelete (k : String) : List (String × StoredObject) → List (String × StoredObject)
  | [] => []
  | e :: rest => if e.1 = k then rest else e :: mapDelete k rest

/-- Well-formedness of a state: the map has pairwise-distinct keys, as every
real `Map` does. -/
def StorageWF (st : StorageState) : Prop :=
  (st.store.map Prod.fst).Nodup

instance (st : StorageState) : Decidable (StorageWF st) := by
  unfold StorageWF; infer_instance

/-- Abstract model of the deterministic `aes192` `createCipher` pipeline
(serialize, encrypt, hex-encode): an injective encoding with non-empty output.
The leading marker plays the role of the padding block `cipher.final` always
emits, so the ciphertext of the empty string is still non-empty. -/
def cipherEncrypt (plaintext : String) : String :=
  String.mk ('c' :: plaintext.data)

/-- Partial inverse of `cipherEncrypt`: the `createDecipher` pipeline, which
throws (here: `none`) on input outside the image of encryption (bad hex, bad
padding, or unparsable JSON after deciphering). -/
def cipherDecrypt (ciphertext : String) : Option String :=
  match ciphertext.data with
  | 'c' :: rest => some (String.mk rest)
  | _ => none

/-- The hex rendering of the random 16-byte `iv` (source line 336): random in
the source, but never used for decryption; only its non-emptiness and its
32-character length are observable.  Modelled as a fixed hex string. -/
def ivHex : String := "00112233445566778899aabbccddeeff"

/-- Model of `encryptData` (source lines 328-347).  The `catch` branch (store
unencrypted on failure) is dead in this model because the modelled cipher is
total. -/
def encryptData (cfg : StorageConfig) (data : Val) : StoredValue :=
  if !cfg.enableEncryption then .raw data
  else .enc (cipherEncrypt data) ivHex

/-- Model of `decryptData` (source lines 349-369): if the stored value is an object
with truthy `encrypted` and `iv` fields, try to decipher and parse, and on any
exception return the stored value unchanged (the `catch` branch); otherwise
return the stored value as-is. -/
def decryptData (cfg : StorageConfig) (encryptedData : StoredValue) : StoredValue :=
  if !cfg.enableEncryption then encryptedData
  else
    match encryptedData with
    | .enc e iv =>
      if e ≠ "" ∧ iv ≠ "" then
        match cipherDecrypt e with
        | some plain => .raw plain
        | none => .enc e iv
      else .enc e iv
    | .raw v => .raw v

/-- Length of `JSON.stringify(obj.value)`, used by `delete` and the eviction loop
(source lines 186-187, 318-319).  For a plain value this is the length of its
serialization; for the `{ encrypted, iv }` object it is the length of
`{"encrypted":"..","iv":".."}`, i.e. 24 framing characters plus the two hex
payloads (hex strings need no JSON escaping). -/
def storedSerializedLength : StoredValue → Nat
  | .raw v => v.length
  | .enc e iv => 24 + e.length + iv.length

/-- The TTL check used by `get` and `performCleanup` (source lines 163, 302):
`obj.ttl && (now - obj.updatedAt.getTime()) > obj.ttl`.  A missing `ttl` and
the falsy value `0` disable the check; otherwise expiry is the strict
comparison `now - updatedAt > ttl`. -/
def isExpired (now : Int) (o : StoredObject) : Bool :=
  match o.ttl with
  | none => false
  | some t => t != 0 && now - o.updatedAt > t

/-- The options bag of `set` (`{ tags?, ttl? }`). -/
structure SetOptions where
  tags : Option (List String)
  ttl : Option Int
deriving DecidableEq, Repr

/-- Model of `replicateSet` (source lines 202-222): for each online node, bump its
`storageUsed` by 0.1 MB (scaled: 1) and stamp `lastSync`.  It never fails and
never touches the store. -/
def replicateSet (cfg : StorageConfig) (now : Int) (nodes : List ReplicationNode) : List ReplicationNode :=
  if !cfg.enableReplication then nodes
  else nodes.map fun n =>
    if n.status = .online then { n with storageUsed := n.storageUsed + 1, lastSync := now }
    else n

/-- Model of `replicateDelete` (source lines 224-240): stamp `lastSync` on each online
node. -/
def replicateDelete (cfg : StorageConfig) (now : Int) (nodes : List ReplicationNode) : List ReplicationNode :=
  if !cfg.enableReplication then nodes
  else nodes.map fun n =>
    if n.status = .online then { n with lastSync := now }
    else n

/-- The `keysToRemove` pass of `performCleanup` (source lines 299-305): the
keys of all currently expired entries, in store order. -/
def expiredKeys (now : Int) (store : List (String × StoredObject)) : List String :=
  (store.filter fun e => isExpired now e.2).map Prod.fst

/-- Model of the deletion loop `for (const key of ks) this.store.delete(key)`. -/
def removeKeys (ks : List String) (store : List (String × StoredObject)) : List (String × StoredObject) :=
  ks.foldl (fun acc k => mapDelete k acc) store

/-- The sort order of the eviction pass: the comparator
`a[1].createdAt - b[1].createdAt` sorts ascending by creation time. -/
def createdBefore (a b : String × StoredObject) : Prop :=
  a.2.createdAt ≤ b.2.createdAt

instance : DecidableRel createdBefore := fun a b => Int.decLe a.2.createdAt b.2.createdAt

/-- Model of the sort at source lines 313-314:
a stable sort, ascending by `createdAt`.  Modelled by (stable) insertion
sort; no property below depends on the order of `createdAt` ties. -/
def sortByCreatedAt (store : List (String × StoredObject)) : List (String × StoredObject) :=
  List.insertionSort createdBefore store

/-- The eviction `while` loop of `performCleanup` (source lines 316-322):
while the tracker still exceeds 90% of the budget and entries remain, shift
the oldest entry, subtract its serialized size (clamped at 0 like
`Math.max`), and delete it.  Returns the deleted keys and the final tracker.
`10 * t > 9 * limit` is the scaled form of `t > 0.9 * limit`, see header. -/
def evictFrom (cfg : StorageConfig) : List (String × StoredObject) → Nat → List String × Nat
  | [], t => ([], t)
  | e :: rest, t =>
    if 10 * t > 9 * (cfg.maxStorageSize * 1048576) then
      let t2 := t - storedSerializedLength e.2.value
      let r := evictFrom cfg rest t2
      (e.1 :: r.1, r.2)
    else ([], t)

/-- Model of `performCleanup` (source lines 294-326): delete all expired entries (the
tracker is *not* decremented for these), then, if the tracker exceeds the
budget, evict in ascending `createdAt` order until it drops to 90% of the
budget or the store is empty. -/
def performCleanup (cfg : StorageConfig) (now : Int) (st : StorageState) : StorageState :=
  let ks := expiredKeys now st.store
  let store1 := removeKeys ks st.store
  if st.sizeTracker > cfg.maxStorageSize * 1048576 then
    let sorted := sortByCreatedAt store1
    let r := evictFrom cfg sorted st.sizeTracker
    { st with store := removeKeys r.1 store1, sizeTracker := r.2 }
  else
    { st with store := store1 }

/-- Model of `set` (source lines 110-151).  `newId` stands for the `generateId()`
result.  Serialize the value, run cleanup if the projected size exceeds the
budget, then build the object: keep the existing truthy `id` and `createdAt`
on update (`existing?.id || generateId()` falls back to a fresh id when the
stored id is the falsy empty string), bump `version`, store (encrypting if
enabled), add the plaintext serialized size to the tracker, and replicate.
The `try` never throws on storable values, so the result is always `true`. -/
def set (cfg : StorageConfig) (st : StorageState) (key : String) (value : Val)
    (options : SetOptions) (now : Int) (newId : String) : Bool × StorageState :=
  let len := value.length
  let st1 :=
    if st.sizeTracker + len > cfg.maxStorageSize * 1048576 then performCleanup cfg now st
    else st
  let existing := mapGet key st1.store
  let obj : StoredObject :=
    { id := match existing with
            | some e => if e.id = "" then newId else e.id
            | none => newId
      key := key
      value := if cfg.enableEncryption then encryptData cfg value else .raw value
      createdAt := match existing with
                   | some e => e.createdAt
                   | none => now
      updatedAt := now
      version := match existing with
                 | some e => e.version + 1
                 | none => 1
      tags := options.tags.getD []
      ttl := options.ttl }
  let store2 := mapSet key obj st1.store
  let t2 := st1.sizeTracker + len
  let nodes2 := if cfg.enableReplication then replicateSet cfg now st1.nodes else st1.nodes
  (true, { store := store2, sizeTracker := t2, nodes := nodes2 })

/-- Model of `delete` (source lines 176-200): if absent return `false`; otherwise
subtract the serialized size of the *stored* value (ciphertext object when
encryption is on) clamped at 0, remove the entry, replicate, return `true`. -/
def delete (cfg : StorageConfig) (st : StorageState) (key : String) (now : Int) : Bool × StorageState :=
  match mapGet key st.store with
  | none => (false, st)
  | some obj =>
    let len := storedSerializedLength obj.value
    let nodes2 := if cfg.enableReplication then replicateDelete cfg now st.nodes else st.nodes
    (true, { store := mapDelete key st.store
             sizeTracker := st.sizeTracker - len
             nodes := nodes2 })

/-- Model of `get` (source lines 153-174): absent keys yield `undefined` (`none`); an
expired entry is deleted as a side effect and yields `none`; otherwise the
value is decrypted (when encryption is enabled) and returned. -/
def get (cfg : StorageConfig) (st : StorageState) (key : String) (now : Int) :
    Option StoredValue × StorageState :=
  match mapGet key st.store with
  | none => (none, st)
  | some obj =>
    if isExpired now obj then
      (none, (delete cfg st key now).2)
    else
      (some (if cfg.enableEncryption then decryptData cfg obj.value else obj.value), st)

/-- Model of `findByTag` (source lines 423-437): over the store in insertion order,
collect the (decrypted, when encryption is enabled) values of entries whose
`tags` include the tag.  There is no TTL check on this path. -/
def findByTag (cfg : StorageConfig) (st : StorageState) (tag : String) : List StoredValue :=
  ((st.store.filter fun e => e.2.tags.contains tag).map
    fun e => if cfg.enableEncryption then decryptData cfg e.2.value else e.2.value)

/-- The measure the spec's size-accounting invariant talks about: the sum of
the serialized sizes of the values currently in the store (scaled to bytes
like `sizeTracker`). -/
def storeSerializedSum (store : List (String × StoredObject)) : Nat :=
  (store.map fun e => storedSerializedLength e.2.value).sum

end PersistentStorage

namespace PersistentStorage

/-! ## Basic lemmas about the map model -/

theorem mapGet_mapSet_self (k : String) (v : StoredObject) :
    ∀ l, mapGet k (mapSet k v l) = some v := by
  intro l
  induction l with
  | nil => simp [mapSet, mapGet]
  | cons e rest ih =>
    by_cases h : e.1 = k
    · simp [mapSet, mapGet, h]
    · simp [mapSet, mapGet, h, ih]

theorem mapDelete_sublist (k : String) : ∀ l, (mapDelete k l).Sublist l := by
  intro l
  induction l with
  | nil => simp [mapDelete]
  | cons e rest ih =>
    by_cases h : e.1 = k
    · rw [mapDelete, if_pos h]
      exact List.Sublist.cons e (List.Sublist.refl rest)
    · rw [mapDelete, if_neg h]
      exact List.Sublist.cons₂ e ih

theorem keys_entry_inj {l : List (String × StoredObject)}
    (h : (l.map Prod.fst).Nodup) {e e2 : String × StoredObject}
    (he : e ∈ l) (he2 : e2 ∈ l) (hk : e.1 = e2.1) : e = e2 := by
  induction l with
  | nil => cases he
  | cons a rest ih =>
    rw [List.map_cons, List.nodup_cons] at h
    rcases List.mem_cons.mp he with he1 | he1 <;> rcases List.mem_cons.mp he2 with he21 | he21
    · rw [he1, he21]
    · exfalso
      apply h.1
      rw [he1] at hk
      rw [hk]
      exact List.mem_map_of_mem Prod.fst he21
    · exfalso
      apply h.1
      rw [he21] at hk
      rw [← hk]
      exact List.mem_map_of_mem Prod.fst he1
    · exact ih h.2 he1 he21

theorem mapDelete_eq_filter (k : String) :
    ∀ l : List (String × StoredObject), (l.map Prod.fst).Nodup →
      mapDelete k l = l.filter (fun e => e.1 != k) := by
  intro l
  induction l with
  | nil => intro _; rfl
  | cons e rest ih =>
    intro h
    rw [List.map_cons, List.nodup_cons] at h
    by_cases hk : e.1 = k
    · have hrest : rest.filter (fun e => e.1 != k) = rest := by
        rw [List.filter_eq_self]
        intro a ha
        have : a.1 ≠ k := fun hc => h.1 (by rw [hk]; exact hc ▸ List.mem_map_of_mem Prod.fst ha)
        simpa using this
      simp [mapDelete, hk, hrest]
    · simp [mapDelete, hk, ih h.2]

theorem mapGet_eq_none_iff (k : String) :
    ∀ l : List (String × StoredObject), mapGet k l = none ↔ ∀ e ∈ l, e.1 ≠ k := by
  intro l
  induction l with
  | nil => simp [mapGet]
  | cons e rest ih =>
    by_cases h : e.1 = k
    · simp [mapGet, h]
    · simp [mapGet, h, ih]

theorem mapGet_mapDelete_self (k : String) (l : List (String × StoredObject))
    (h : (l.map Prod.fst).Nodup) : mapGet k (mapDelete k l) = none := by
  rw [mapDelete_eq_filter k l h, mapGet_eq_none_iff]
  intro e he
  have := (List.mem_filter.mp he).2
  simpa using this

theorem removeKeys_eq_filter :
    ∀ (ks : List String) (l : List (String × StoredObject)), (l.map Prod.fst).Nodup →
      removeKeys ks l = l.filter (fun e => !(ks.contains e.1)) := by
  intro ks
  induction ks with
  | nil =>
    intro l _
    simp only [removeKeys, List.foldl_nil]
    rw [Eq.comm, List.filter_eq_self]
    intro a _
    simp
  | cons k ks ih =>
    intro l h
    have hdel : mapDelete k l = l.filter (fun e => e.1 != k) := mapDelete_eq_filter k l h
    have hnd : ((l.filter (fun e => e.1 != k)).map Prod.fst).Nodup :=
      ((List.filter_sublist l).map Prod.fst).nodup h
    have : removeKeys (k :: ks) l = removeKeys ks (mapDelete k l) := rfl
    rw [this, hdel, ih _ hnd, List.filter_filter]
    apply List.filter_congr
    intro e _
    by_cases h1 : e.1 = k
    · simp [h1]
    · simp [h1]

/-- The expired-removal pass deletes exactly the expired entries (the keys of
a well-formed map determine its entries). -/
theorem removeKeys_expiredKeys (now : Int) (l : List (String × StoredObject))
    (h : (l.map Prod.fst).Nodup) :
    removeKeys (expiredKeys now l) l = l.filter (fun e => !isExpired now e.2) := by
  rw [removeKeys_eq_filter _ l h]
  apply List.filter_congr
  intro e he
  by_cases hexp : isExpired now e.2 = true
  · have hmem : e.1 ∈ expiredKeys now l := by
      unfold expiredKeys
      exact List.mem_map_of_mem Prod.fst (List.mem_filter.mpr ⟨he, hexp⟩)
    simp only [hexp]
    simpa using hmem
  · have hnm : e.1 ∉ expiredKeys now l := by
      intro hm
      unfold expiredKeys at hm
      rcases List.mem_map.mp hm with ⟨e2, he2, hfst⟩
      have he2l := (List.mem_filter.mp he2).1
      have he2exp := (List.mem_filter.mp he2).2
      have := keys_entry_inj h he he2l hfst.symm
      rw [this] at hexp
      exact hexp he2exp
    simp [hexp, hnm]

end PersistentStorage

namespace PersistentStorage

/-! ## Lemmas about the encryption codec -/

theorem cipherDecrypt_cipherEncrypt (s : String) :
    cipherDecrypt (cipherEncrypt s) = some s := by
  cases s with
  | mk data => rfl

theorem cipherEncrypt_ne_empty (s : String) : cipherEncrypt s ≠ "" := by
  intro h
  have h2 : ('c' :: s.data) = ([] : List Char) := congrArg String.data h
  exact List.cons_ne_nil _ _ h2

/-- With encryption enabled, the stored ciphertext object decrypts back to the
original value: the cipher is deterministic with key and IV derived from the
fixed password, so `decryptData` inverts `encryptData`. -/
theorem decryptData_encryptData (cfg : StorageConfig)
    (h : cfg.enableEncryption = true) (v : Val) :
    decryptData cfg (encryptData cfg v) = .raw v := by
  have hiv : ivHex ≠ "" := by decide
  simp [encryptData, decryptData, h, cipherEncrypt_ne_empty v, hiv,
        cipherDecrypt_cipherEncrypt]

end PersistentStorage

namespace PersistentStorage

/-! ## C1: put/get round-trip -/

/-- C1.  Round-trip: for every key `k` and storable value `v`, `put(k, v)`
followed immediately by `get(k)` (same clock instant, so no TTL has elapsed;
the hypothesis rules out an already-elapsed negative TTL option) returns `v`.
This includes the encrypted configuration, where the stored value is exactly
the ciphertext produced by the encrypt path and `get` returns its
decryption. -/
theorem c1_put_get_roundtrip (cfg : StorageConfig) (st : StorageState) (k : String)
    (v : Val) (opts : SetOptions) (now : Int) (newId : String)
    (httl : ∀ t, opts.ttl = some t → 0 ≤ t) :
    (get cfg (set cfg st k v opts now newId).2 k now).1 = some (.raw v) ∧
    (cfg.enableEncryption = true →
      (mapGet k (set cfg st k v opts now newId).2.store).map StoredObject.value
        = some (encryptData cfg v) ∧
      decryptData cfg (encryptData cfg v) = .raw v) := by
  have hexp : ∀ o : StoredObject, o.updatedAt = now → o.ttl = opts.ttl →
      isExpired now o = false := by
    intro o hu ht
    unfold isExpired
    rw [ht]
    cases hop : opts.ttl with
    | none => rfl
    | some t =>
      have h0 : 0 ≤ t := httl t hop
      have hlt : ¬ (now - o.updatedAt > t) := by rw [hu]; omega
      simp [hlt]
  constructor
  · simp only [set, get]
    rw [mapGet_mapSet_self]
    simp only []
    rw [hexp _ rfl rfl]
    simp only [Bool.false_eq_true, if_false]
    by_cases henc : cfg.enableEncryption = true
    · simp [henc, decryptData_encryptData cfg henc v]
    · have henc2 : cfg.enableEncryption = false := by
        cases hb : cfg.enableEncryption
        · rfl
        · exact absurd hb henc
      simp [henc2]
  · intro henc
    refine ⟨?_, decryptData_encryptData cfg henc v⟩
    simp only [set]
    rw [mapGet_mapSet_self]
    simp [henc]

/-- C1 witness: a concrete round-trip with encryption enabled. -/
theorem c1_put_get_roundtrip_witness :
    (∀ t : Int, (none : Option Int) = some t → 0 ≤ t) ∧
    ((get ⟨true, 3, 60000, 1024, true, 300000⟩
        (set ⟨true, 3, 60000, 1024, true, 300000⟩ ⟨[], 0, []⟩ "k" "42"
          ⟨none, none⟩ 0 "id1").2 "k" 0).1 = some (.raw "42") ∧
      ((⟨true, 3, 60000, 1024, true, 300000⟩ : StorageConfig).enableEncryption = true →
        (mapGet "k" (set ⟨true, 3, 60000, 1024, true, 300000⟩ ⟨[], 0, []⟩ "k" "42"
            ⟨none, none⟩ 0 "id1").2.store).map StoredObject.value
          = some (encryptData ⟨true, 3, 60000, 1024, true, 300000⟩ "42") ∧
        decryptData ⟨true, 3, 60000, 1024, true, 300000⟩
            (encryptData ⟨true, 3, 60000, 1024, true, 300000⟩ "42") = .raw "42")) :=
  ⟨(fun _ h => nomatch h),
   c1_put_get_roundtrip ⟨true, 3, 60000, 1024, true, 300000⟩ ⟨[], 0, []⟩ "k" "42"
     ⟨none, none⟩ 0 "id1" (fun _ h => nomatch h)⟩

end PersistentStorage

namespace PersistentStorage

/-! ## C2: capacity enforcement -/

/-- C2 counterexample.  With a zero storage budget and an empty store, a `put`
whose projected size exceeds the budget even after cleanup does *not* fail:
it returns success, inserts the object, and leaves usage above the budget.
The claim predicted a `CapacityExceeded` failure with the store unchanged. -/
theorem c2_capacity_counterexample :
    (set ⟨false, 3, 60000, 0, false, 300000⟩ ⟨[], 0, []⟩ "k" "42"
        ⟨none, none⟩ 0 "id1").1 = true ∧
    (mapGet "k" (set ⟨false, 3, 60000, 0, false, 300000⟩ ⟨[], 0, []⟩ "k" "42"
        ⟨none, none⟩ 0 "id1").2.store).isSome = true ∧
    (set ⟨false, 3, 60000, 0, false, 300000⟩ ⟨[], 0, []⟩ "k" "42"
        ⟨none, none⟩ 0 "id1").2.sizeTracker
      > (⟨false, 3, 60000, 0, false, 300000⟩ : StorageConfig).maxStorageSize * 1048576 := by
  decide

/-- C2 amended.  The `set` operation never rejects a write: there is no
`CapacityExceeded` (or any other) failure path.  Every `put` returns `true`
and inserts the object; and for every `put` whose projected size, after the
conditional cleanup pass has run, still exceeds `maxStorageBytes` (the
scenario the original claim quantifies over), the write nevertheless goes
through and leaves the size counter strictly above the budget - there is no
rejection and no rollback.  The `if` term below is exactly the state `set`
continues from: cleanup has run precisely when the projected size exceeded
the budget. -/
theorem c2_amended_set_always_inserts (cfg : StorageConfig) (st : StorageState)
    (k : String) (v : Val) (opts : SetOptions) (now : Int) (newId : String) :
    ((set cfg st k v opts now newId).1 = true ∧
     (mapGet k (set cfg st k v opts now newId).2.store).isSome = true) ∧
    ((if st.sizeTracker + v.length > cfg.maxStorageSize * 1048576
        then performCleanup cfg now st else st).sizeTracker + v.length
          > cfg.maxStorageSize * 1048576 →
      (set cfg st k v opts now newId).2.sizeTracker
        > cfg.maxStorageSize * 1048576) := by
  refine ⟨⟨rfl, ?_⟩, ?_⟩
  · simp only [set]
    rw [mapGet_mapSet_self]
    rfl
  · intro hover
    simp only [set]
    exact hover

/-- C2 witness: with a zero budget and an empty store, the projected size
after the cleanup pass still exceeds the budget, and the `put` succeeds,
inserts, and leaves the counter above the budget. -/
theorem c2_amended_set_always_inserts_witness :
    ((if (⟨[], 0, []⟩ : StorageState).sizeTracker + ("42" : Val).length
        > (⟨false, 3, 60000, 0, false, 300000⟩ : StorageConfig).maxStorageSize * 1048576
      then performCleanup ⟨false, 3, 60000, 0, false, 300000⟩ 0 ⟨[], 0, []⟩
      else ⟨[], 0, []⟩).sizeTracker + ("42" : Val).length
        > (⟨false, 3, 60000, 0, false, 300000⟩ : StorageConfig).maxStorageSize * 1048576) ∧
    (((set ⟨false, 3, 60000, 0, false, 300000⟩ ⟨[], 0, []⟩ "j" "42"
        ⟨none, none⟩ 0 "id2").1 = true ∧
      (mapGet "j" (set ⟨false, 3, 60000, 0, false, 300000⟩ ⟨[], 0, []⟩ "j" "42"
        ⟨none, none⟩ 0 "id2").2.store).isSome = true) ∧
     ((if (⟨[], 0, []⟩ : StorageState).sizeTracker + ("42" : Val).length
          > (⟨false, 3, 60000, 0, false, 300000⟩ : StorageConfig).maxStorageSize * 1048576
        then performCleanup ⟨false, 3, 60000, 0, false, 300000⟩ 0 ⟨[], 0, []⟩
        else ⟨[], 0, []⟩).sizeTracker + ("42" : Val).length
          > (⟨false, 3, 60000, 0, false, 300000⟩ : StorageConfig).maxStorageSize * 1048576 →
      (set ⟨false, 3, 60000, 0, false, 300000⟩ ⟨[], 0, []⟩ "j" "42"
        ⟨none, none⟩ 0 "id2").2.sizeTracker
        > (⟨false, 3, 60000, 0, false, 300000⟩ : StorageConfig).maxStorageSize * 1048576)) :=
  ⟨by decide,
   c2_amended_set_always_inserts ⟨false, 3, 60000, 0, false, 300000⟩ ⟨[], 0, []⟩
     "j" "42" ⟨none, none⟩ 0 "id2"⟩

/-! ## C9: put outcome is independent of replication -/

theorem performCleanup_nodes_indep (cfg : StorageConfig) (now : Int)
    (s : List (String × StoredObject)) (t : Nat) (ns1 ns2 : List ReplicationNode) :
    (performCleanup cfg now ⟨s, t, ns1⟩).store = (performCleanup cfg now ⟨s, t, ns2⟩).store ∧
    (performCleanup cfg now ⟨s, t, ns1⟩).sizeTracker
      = (performCleanup cfg now ⟨s, t, ns2⟩).sizeTracker := by
  unfold performCleanup
  dsimp only
  split_ifs
  · exact ⟨rfl, rfl⟩
  · exact ⟨rfl, rfl⟩

/-- C9.  The outcome of a `put` is independent of replication: two runs that
differ only in the peer list (identities, statuses, counts - including every
peer offline) return the same result and produce the same key map and size
counter.  Replication cannot fail and is never propagated to the caller: the
peer loop only updates per-node bookkeeping. -/
theorem c9_put_independent_of_replication (cfg : StorageConfig)
    (s : List (String × StoredObject)) (t : Nat)
    (ns1 ns2 : List ReplicationNode) (k : String) (v : Val) (opts : SetOptions)
    (now : Int) (newId : String) :
    (set cfg ⟨s, t, ns1⟩ k v opts now newId).1
      = (set cfg ⟨s, t, ns2⟩ k v opts now newId).1 ∧
    (set cfg ⟨s, t, ns1⟩ k v opts now newId).2.store
      = (set cfg ⟨s, t, ns2⟩ k v opts now newId).2.store ∧
    (set cfg ⟨s, t, ns1⟩ k v opts now newId).2.sizeTracker
      = (set cfg ⟨s, t, ns2⟩ k v opts now newId).2.sizeTracker := by
  have hcl := performCleanup_nodes_indep cfg now s t ns1 ns2
  refine ⟨rfl, ?_, ?_⟩ <;>
  · simp only [set]
    dsimp only
    split_ifs
    all_goals simp only [hcl.1, hcl.2]

end PersistentStorage

namespace PersistentStorage

/-! ## C4: TTL-aware get -/

/-- C4 counterexample.  At the exact boundary `now - updatedAt = ttlMillis`
(here `1000 - 0 = 1000`), the claim says `get` returns `NotFound`; the code's
check is the strict `(now - updatedAt) > ttl`, so the value is still returned
and nothing is deleted. -/
theorem c4_ttl_boundary_counterexample :
    ((1000 : Int) - 0 = 1000) ∧
    get ⟨false, 3, 60000, 1, false, 300000⟩
        ⟨[("k", ⟨"i", "k", .raw "7", 0, 0, 1, [], some 1000⟩)], 1, []⟩ "k" 1000
      = (some (.raw "7"),
         ⟨[("k", ⟨"i", "k", .raw "7", 0, 0, 1, [], some 1000⟩)], 1, []⟩) := by
  decide

/-- C4 amended.  A `get(k)` returns `NotFound` when `k` is absent; when `k` is
present with a nonzero `ttlMillis` and `now - updatedAt` *strictly greater*
than `ttlMillis` it returns `NotFound` and removes the object as a side
effect; at the boundary `now - updatedAt = ttlMillis` the object is *not*
expired: its (decrypted) value is returned and the state is unchanged. -/
theorem c4_amended_ttl_get (cfg : StorageConfig) (st : StorageState) (k : String)
    (now : Int) (hwf : StorageWF st) :
    (mapGet k st.store = none → get cfg st k now = (none, st)) ∧
    (∀ o, mapGet k st.store = some o → isExpired now o = true →
      (get cfg st k now).1 = none ∧ mapGet k (get cfg st k now).2.store = none) ∧
    (∀ o t, mapGet k st.store = some o → o.ttl = some t → now - o.updatedAt = t →
      (get cfg st k now).1
        = some (if cfg.enableEncryption then decryptData cfg o.value else o.value) ∧
      (get cfg st k now).2 = st) := by
  refine ⟨?_, ?_, ?_⟩
  · intro h
    simp [get, h]
  · intro o ho hexp
    constructor
    · simp [get, ho, hexp]
    · have hdel : (delete cfg st k now).2.store = mapDelete k st.store := by
        simp [delete, ho]
      simp only [get, ho, hexp]
      simp only [if_true]
      rw [hdel]
      exact mapGet_mapDelete_self k st.store hwf
  · intro o t ho httl hbd
    have hexp : isExpired now o = false := by
      unfold isExpired
      rw [httl, hbd]
      simp
    constructor
    · simp [get, ho, hexp]
    · simp [get, ho, hexp]

/-- C4 witness: a concrete expired read (strictly past the TTL) returns
nothing and deletes the entry, and an absent key returns nothing. -/
theorem c4_amended_ttl_get_witness :
    StorageWF ⟨[("k", ⟨"i", "k", .raw "7", 0, 0, 1, [], some 1000⟩)], 1, []⟩ ∧
    ((mapGet "k" (⟨[("k", ⟨"i", "k", .raw "7", 0, 0, 1, [], some 1000⟩)], 1, []⟩ : StorageState).store
        = none →
      get ⟨false, 3, 60000, 1, false, 300000⟩
          ⟨[("k", ⟨"i", "k", .raw "7", 0, 0, 1, [], some 1000⟩)], 1, []⟩ "k" 1001
        = (none, ⟨[("k", ⟨"i", "k", .raw "7", 0, 0, 1, [], some 1000⟩)], 1, []⟩)) ∧
    (∀ o, mapGet "k" (⟨[("k", ⟨"i", "k", .raw "7", 0, 0, 1, [], some 1000⟩)], 1, []⟩ : StorageState).store
        = some o → isExpired 1001 o = true →
      (get ⟨false, 3, 60000, 1, false, 300000⟩
          ⟨[("k", ⟨"i", "k", .raw "7", 0, 0, 1, [], some 1000⟩)], 1, []⟩ "k" 1001).1 = none ∧
      mapGet "k" (get ⟨false, 3, 60000, 1, false, 300000⟩
          ⟨[("k", ⟨"i", "k", .raw "7", 0, 0, 1, [], some 1000⟩)], 1, []⟩ "k" 1001).2.store
        = none) ∧
    (∀ o t, mapGet "k" (⟨[("k", ⟨"i", "k", .raw "7", 0, 0, 1, [], some 1000⟩)], 1, []⟩ : StorageState).store
        = some o → o.ttl = some t → (1001 : Int) - o.updatedAt = t →
      (get ⟨false, 3, 60000, 1, false, 300000⟩
          ⟨[("k", ⟨"i", "k", .raw "7", 0, 0, 1, [], some 1000⟩)], 1, []⟩ "k" 1001).1
        = some (if (⟨false, 3, 60000, 1, false, 300000⟩ : StorageConfig).enableEncryption
                then decryptData ⟨false, 3, 60000, 1, false, 300000⟩ o.value else o.value) ∧
      (get ⟨false, 3, 60000, 1, false, 300000⟩
          ⟨[("k", ⟨"i", "k", .raw "7", 0, 0, 1, [], some 1000⟩)], 1, []⟩ "k" 1001).2
        = ⟨[("k", ⟨"i", "k", .raw "7", 0, 0, 1, [], some 1000⟩)], 1, []⟩)) :=
  ⟨by decide,
   c4_amended_ttl_get ⟨false, 3, 60000, 1, false, 300000⟩
     ⟨[("k", ⟨"i", "k", .raw "7", 0, 0, 1, [], some 1000⟩)], 1, []⟩ "k" 1001 (by decide)⟩

end PersistentStorage

namespace PersistentStorage

/-! ## C7: version monotonicity -/

/-- C7 counterexample.  `set` returns the boolean `true`, not the new
version: two successive `put`s of the same key return the *same* value even
though the stored versions are 1 and then 2, so the value returned by `put`
cannot be the (strictly increasing) version. -/
theorem c7_version_counterexample :
    (set ⟨false, 3, 60000, 1, false, 300000⟩ ⟨[], 0, []⟩ "k" "1"
        ⟨none, none⟩ 0 "a").1
      = (set ⟨false, 3, 60000, 1, false, 300000⟩
          (set ⟨false, 3, 60000, 1, false, 300000⟩ ⟨[], 0, []⟩ "k" "1"
            ⟨none, none⟩ 0 "a").2 "k" "1" ⟨none, none⟩ 1 "b").1 ∧
    (mapGet "k" (set ⟨false, 3, 60000, 1, false, 300000⟩ ⟨[], 0, []⟩ "k" "1"
        ⟨none, none⟩ 0 "a").2.store).map StoredObject.version = some 1 ∧
    (mapGet "k" (set ⟨false, 3, 60000, 1, false, 300000⟩
        (set ⟨false, 3, 60000, 1, false, 300000⟩ ⟨[], 0, []⟩ "k" "1"
          ⟨none, none⟩ 0 "a").2 "k" "1" ⟨none, none⟩ 1 "b").2.store).map
      StoredObject.version = some 2 := by
  decide

/-- C7 amended.  While the key stays present (in particular when the `put`
does not trigger a cleanup that could drop it, which the size hypothesis
guarantees), the stored version for a key never decreases and each successive
`put` stores exactly the previous version plus one; a first `put` stores
version 1.  `put` itself returns the success boolean `true`, not the
version. -/
theorem c7_amended_version_increments (cfg : StorageConfig) (st : StorageState)
    (k : String) (v : Val) (opts : SetOptions) (now : Int) (newId : String)
    (hnc : st.sizeTracker + v.length ≤ cfg.maxStorageSize * 1048576) :
    (∀ o, mapGet k st.store = some o →
      (mapGet k (set cfg st k v opts now newId).2.store).map StoredObject.version
        = some (o.version + 1)) ∧
    (mapGet k st.store = none →
      (mapGet k (set cfg st k v opts now newId).2.store).map StoredObject.version
        = some 1) ∧
    (set cfg st k v opts now newId).1 = true := by
  have hcond : ¬ (st.sizeTracker + v.length > cfg.maxStorageSize * 1048576) := by
    omega
  refine ⟨?_, ?_, rfl⟩
  · intro o ho
    simp only [set, if_neg hcond]
    rw [mapGet_mapSet_self]
    simp [ho]
  · intro ho
    simp only [set, if_neg hcond]
    rw [mapGet_mapSet_self]
    simp [ho]

/-- C7 witness: a fresh key stores version 1 and an update stores version 2,
with `set` returning `true`, on a concrete small store. -/
theorem c7_amended_version_increments_witness :
    ((⟨[("k", ⟨"i", "k", .raw "7", 0, 0, 1, [], none⟩)], 1, []⟩ : StorageState).sizeTracker
        + ("77" : Val).length ≤ (⟨false, 3, 60000, 1, false, 300000⟩ : StorageConfig).maxStorageSize * 1048576) ∧
    ((∀ o, mapGet "k" (⟨[("k", ⟨"i", "k", .raw "7", 0, 0, 1, [], none⟩)], 1, []⟩ : StorageState).store
        = some o →
      (mapGet "k" (set ⟨false, 3, 60000, 1, false, 300000⟩
          ⟨[("k", ⟨"i", "k", .raw "7", 0, 0, 1, [], none⟩)], 1, []⟩ "k" "77"
          ⟨none, none⟩ 5 "j").2.store).map StoredObject.version = some (o.version + 1)) ∧
    (mapGet "k" (⟨[("k", ⟨"i", "k", .raw "7", 0, 0, 1, [], none⟩)], 1, []⟩ : StorageState).store
        = none →
      (mapGet "k" (set ⟨false, 3, 60000, 1, false, 300000⟩
          ⟨[("k", ⟨"i", "k", .raw "7", 0, 0, 1, [], none⟩)], 1, []⟩ "k" "77"
          ⟨none, none⟩ 5 "j").2.store).map StoredObject.version = some 1) ∧
    (set ⟨false, 3, 60000, 1, false, 300000⟩
        ⟨[("k", ⟨"i", "k", .raw "7", 0, 0, 1, [], none⟩)], 1, []⟩ "k" "77"
        ⟨none, none⟩ 5 "j").1 = true) :=
  ⟨by decide,
   c7_amended_version_increments ⟨false, 3, 60000, 1, false, 300000⟩
     ⟨[("k", ⟨"i", "k", .raw "7", 0, 0, 1, [], none⟩)], 1, []⟩ "k" "77"
     ⟨none, none⟩ 5 "j" (by decide)⟩

/-! ## C10: frame property of updates -/

/-- C10 counterexample.  A `put` on a key that is already present does *not*
always preserve `createdAt` and `id`: with a zero budget the `put` first runs
`performCleanup`, which evicts the existing (non-expired) entry, so the `put`
re-creates the object with a fresh `id` and `createdAt` (and version 1).
Before the `put` the key held id `"x"` and `createdAt` 5; afterwards id
`"y"` and `createdAt` 99. -/
theorem c10_update_frame_counterexample :
    mapGet "k" (⟨[("k", ⟨"x", "k", .raw "99", 5, 0, 3, [], none⟩)], 1, []⟩ : StorageState).store
      = some ⟨"x", "k", .raw "99", 5, 0, 3, [], none⟩ ∧
    (mapGet "k" (set ⟨false, 3, 60000, 0, false, 300000⟩
        ⟨[("k", ⟨"x", "k", .raw "99", 5, 0, 3, [], none⟩)], 1, []⟩ "k" "77"
        ⟨none, none⟩ 99 "y").2.store).map StoredObject.id = some "y" ∧
    (mapGet "k" (set ⟨false, 3, 60000, 0, false, 300000⟩
        ⟨[("k", ⟨"x", "k", .raw "99", 5, 0, 3, [], none⟩)], 1, []⟩ "k" "77"
        ⟨none, none⟩ 99 "y").2.store).map StoredObject.createdAt = some 99 := by
  decide

/-- C10 amended.  Provided the `put` does not trigger a cleanup that could
remove the key (the size hypothesis) and the stored id is non-empty (as every
generated id is), a `put` on a present key preserves the object's `id` and
`createdAt` and updates exactly `value`, `version` (incremented),
`updatedAt`, `tags` and `ttl` - the whole resulting object is pinned. -/
theorem c10_amended_update_frame (cfg : StorageConfig) (st : StorageState)
    (k : String) (v : Val) (opts : SetOptions) (now : Int) (newId : String) (o : StoredObject)
    (hnc : st.sizeTracker + v.length ≤ cfg.maxStorageSize * 1048576)
    (ho : mapGet k st.store = some o) (hid : o.id ≠ "") :
    mapGet k (set cfg st k v opts now newId).2.store
      = some ⟨o.id, k,
              (if cfg.enableEncryption then encryptData cfg v else .raw v),
              o.createdAt, now, o.version + 1, opts.tags.getD [], opts.ttl⟩ := by
  have hcond : ¬ (st.sizeTracker + v.length > cfg.maxStorageSize * 1048576) := by
    omega
  simp only [set, if_neg hcond]
  rw [mapGet_mapSet_self]
  simp [ho, hid]

/-- C10 witness: an in-budget update of a present key keeps id `"x"` and
`createdAt` 5 while bumping the version to 4. -/
theorem c10_amended_update_frame_witness :
    ((⟨[("k", ⟨"x", "k", .raw "99", 5, 0, 3, [], none⟩)], 1, []⟩ : StorageState).sizeTracker
        + ("77" : Val).length ≤ (⟨false, 3, 60000, 1, false, 300000⟩ : StorageConfig).maxStorageSize * 1048576) ∧
    (mapGet "k" (⟨[("k", ⟨"x", "k", .raw "99", 5, 0, 3, [], none⟩)], 1, []⟩ : StorageState).store
      = some ⟨"x", "k", .raw "99", 5, 0, 3, [], none⟩) ∧
    (("x" : String) ≠ "") ∧
    (mapGet "k" (set ⟨false, 3, 60000, 1, false, 300000⟩
        ⟨[("k", ⟨"x", "k", .raw "99", 5, 0, 3, [], none⟩)], 1, []⟩ "k" "77"
        ⟨some ["t"], some 9⟩ 6 "j").2.store
      = some ⟨"x", "k",
              (if (⟨false, 3, 60000, 1, false, 300000⟩ : StorageConfig).enableEncryption
               then encryptData ⟨false, 3, 60000, 1, false, 300000⟩ "77" else .raw "77"),
              5, 6, 4, (some ["t"] : Option (List String)).getD [], some 9⟩) :=
  ⟨by decide, by decide, by decide,
   c10_amended_update_frame ⟨false, 3, 60000, 1, false, 300000⟩
     ⟨[("k", ⟨"x", "k", .raw "99", 5, 0, 3, [], none⟩)], 1, []⟩ "k" "77"
     ⟨some ["t"], some 9⟩ 6 "j" ⟨"x", "k", .raw "99", 5, 0, 3, [], none⟩
     (by decide) (by decide) (by decide)⟩

end PersistentStorage

namespace PersistentStorage

/-! ## C8: findByTag and expiry -/

/-- C8 counterexample.  `findByTag` does not consult TTLs at all (it takes no
clock): an object whose `ttlMillis` has long elapsed (ttl 5, last update at 0,
clock 100) is still returned by a tag query. -/
theorem c8_findByTag_expired_counterexample :
    isExpired 100 (⟨"i", "k", .raw "9", 0, 0, 1, ["t"], some 5⟩ : StoredObject) = true ∧
    findByTag ⟨false, 3, 60000, 1, false, 300000⟩
        ⟨[("k", ⟨"i", "k", .raw "9", 0, 0, 1, ["t"], some 5⟩)], 1, []⟩ "t"
      = [.raw "9"] := by
  decide

/-- C8 amended.  The call `findByTag(t)` returns exactly the (decrypted, when
encryption is enabled) values of the currently stored objects whose tag list
contains `t` - *including* expired objects: the scan performs no TTL check
and removes nothing. -/
theorem c8_amended_findByTag_membership (cfg : StorageConfig) (st : StorageState)
    (tag : String) (w : StoredValue) :
    w ∈ findByTag cfg st tag ↔
      ∃ e, e ∈ st.store ∧ e.2.tags.contains tag = true ∧
        w = (if cfg.enableEncryption then decryptData cfg e.2.value else e.2.value) := by
  unfold findByTag
  rw [List.mem_map]
  constructor
  · rintro ⟨e, he, hw⟩
    have h1 := List.mem_filter.mp he
    exact ⟨e, h1.1, h1.2, hw.symm⟩
  · rintro ⟨e, he, htag, hw⟩
    exact ⟨e, List.mem_filter.mpr ⟨he, htag⟩, hw.symm⟩

/-! ## C3: tamper detection -/

/-- C3, behavior of the code at the failing input.  For a stored ciphertext
corrupted so that deciphering fails (`cipherDecrypt` returns `none`,
modelling the exception the tampered hex raises), `get` does *not* fail with
a `DecryptionError`: the `catch` in `decryptData` swallows the failure and
`get` silently returns the stored raw ciphertext object unchanged. -/
theorem c3_tamper_returns_raw_ciphertext :
    cipherDecrypt "zz" = none ∧
    get ⟨true, 3, 60000, 1, true, 300000⟩
        ⟨[("k", ⟨"i", "k", .enc "zz" ivHex, 0, 0, 1, [], none⟩)], 1, []⟩ "k" 0
      = (some (.enc "zz" ivHex),
         ⟨[("k", ⟨"i", "k", .enc "zz" ivHex, 0, 0, 1, [], none⟩)], 1, []⟩) := by
  decide

/-! ## C6: size accounting -/

/-- C6, behavior of the code at the failing input.  The incrementally
maintained counter does not equal the sum of stored serialized sizes:
(a) two successive `put`s of the same 5-byte value leave the counter at 10
while a single 5-byte object is stored (an update adds the new size without
subtracting the old one); (b) removing an expired entry during cleanup
deletes the object but leaves the counter unchanged (here an expired 3-byte
entry is removed while the counter stays at 3). -/
theorem c6_size_accounting_divergence :
    (set ⟨false, 3, 60000, 1, false, 300000⟩
        (set ⟨false, 3, 60000, 1, false, 300000⟩ ⟨[], 0, []⟩ "k" "12345"
          ⟨none, none⟩ 0 "a").2 "k" "12345" ⟨none, none⟩ 1 "b").2.sizeTracker = 10 ∧
    storeSerializedSum (set ⟨false, 3, 60000, 1, false, 300000⟩
        (set ⟨false, 3, 60000, 1, false, 300000⟩ ⟨[], 0, []⟩ "k" "12345"
          ⟨none, none⟩ 0 "a").2 "k" "12345" ⟨none, none⟩ 1 "b").2.store = 5 ∧
    (performCleanup ⟨false, 3, 60000, 1, false, 300000⟩ 100
        ⟨[("e", ⟨"i", "e", .raw "333", 0, 0, 1, [], some 5⟩)], 3, []⟩).store = [] ∧
    (performCleanup ⟨false, 3, 60000, 1, false, 300000⟩ 100
        ⟨[("e", ⟨"i", "e", .raw "333", 0, 0, 1, [], some 5⟩)], 3, []⟩).sizeTracker = 3 := by
  decide

end PersistentStorage

namespace PersistentStorage

/-! ## C5: eviction policy -/

instance : IsTotal (String × StoredObject) createdBefore :=
  ⟨fun a b => Int.le_total a.2.createdAt b.2.createdAt⟩

instance : IsTrans (String × StoredObject) createdBefore :=
  ⟨fun _ _ _ hab hbc => le_trans hab hbc⟩

theorem sortByCreatedAt_perm (l : List (String × StoredObject)) :
    (sortByCreatedAt l).Perm l :=
  List.perm_insertionSort createdBefore l

theorem sortByCreatedAt_pairwise (l : List (String × StoredObject)) :
    List.Pairwise createdBefore (sortByCreatedAt l) :=
  List.sorted_insertionSort createdBefore l

/-- The eviction loop always deletes a prefix of the sorted entry list. -/
theorem evictFrom_take (cfg : StorageConfig) :
    ∀ (l : List (String × StoredObject)) (t : Nat),
      ∃ n, n ≤ l.length ∧ (evictFrom cfg l t).1 = (l.take n).map Prod.fst := by
  intro l
  induction l with
  | nil =>
    intro t
    exact ⟨0, by simp, by simp [evictFrom]⟩
  | cons e rest ih =>
    intro t
    by_cases h : 10 * t > 9 * (cfg.maxStorageSize * 1048576)
    · obtain ⟨n, hn, hev⟩ := ih (t - storedSerializedLength e.2.value)
      refine ⟨n + 1, by simpa using hn, ?_⟩
      simp only [evictFrom, if_pos h]
      simp [hev]
    · exact ⟨0, by simp, by simp [evictFrom, if_neg h]⟩

/-- The eviction loop stops only once it has either consumed every entry or
brought the tracker to at most 90% of the budget. -/
theorem evictFrom_consume_or_target (cfg : StorageConfig) :
    ∀ (l : List (String × StoredObject)) (t : Nat),
      (evictFrom cfg l t).1 = l.map Prod.fst ∨
      10 * (evictFrom cfg l t).2 ≤ 9 * (cfg.maxStorageSize * 1048576) := by
  intro l
  induction l with
  | nil =>
    intro t
    left
    simp [evictFrom]
  | cons e rest ih =>
    intro t
    by_cases h : 10 * t > 9 * (cfg.maxStorageSize * 1048576)
    · rcases ih (t - storedSerializedLength e.2.value) with h2 | h2
      · left
        simp only [evictFrom, if_pos h]
        simp [h2]
      · right
        simp only [evictFrom, if_pos h]
        simpa using h2
    · right
      simp only [evictFrom, if_neg h]
      omega

theorem performCleanup_eq_of_le (cfg : StorageConfig) (now : Int) (st : StorageState)
    (h : ¬ (st.sizeTracker > cfg.maxStorageSize * 1048576)) :
    performCleanup cfg now st
      = { st with store := removeKeys (expiredKeys now st.store) st.store } := by
  simp only [performCleanup]
  rw [if_neg h]

theorem performCleanup_eq_of_gt (cfg : StorageConfig) (now : Int) (st : StorageState)
    (h : st.sizeTracker > cfg.maxStorageSize * 1048576) :
    performCleanup cfg now st
      = { st with
          store := removeKeys
            (evictFrom cfg (sortByCreatedAt (removeKeys (expiredKeys now st.store) st.store))
              st.sizeTracker).1
            (removeKeys (expiredKeys now st.store) st.store)
          sizeTracker := (evictFrom cfg
            (sortByCreatedAt (removeKeys (expiredKeys now st.store) st.store))
            st.sizeTracker).2 } := by
  simp only [performCleanup]
  rw [if_pos h]

end PersistentStorage

namespace PersistentStorage

theorem removeKeys_sublist : ∀ (ks : List String) (l : List (String × StoredObject)),
    (removeKeys ks l).Sublist l := by
  intro ks
  induction ks with
  | nil => intro l; exact List.Sublist.refl l
  | cons k ks ih =>
    intro l
    have h1 : removeKeys (k :: ks) l = removeKeys ks (mapDelete k l) := rfl
    rw [h1]
    exact (ih (mapDelete k l)).trans (mapDelete_sublist k l)

/-- Entries removed by the eviction loop are never newer than entries that
survive it: the loop consumes a prefix of the `createdAt`-sorted list. -/
theorem evict_oldest_first (cfg : StorageConfig) (f : List (String × StoredObject))
    (t : Nat) (hnd : (f.map Prod.fst).Nodup) (e e2 : String × StoredObject)
    (he : e ∈ f)
    (hnot : e ∉ removeKeys (evictFrom cfg (sortByCreatedAt f) t).1 f)
    (he2 : e2 ∈ removeKeys (evictFrom cfg (sortByCreatedAt f) t).1 f) :
    e.2.createdAt ≤ e2.2.createdAt := by
  have hperm := sortByCreatedAt_perm f
  have hfinal : removeKeys (evictFrom cfg (sortByCreatedAt f) t).1 f
      = f.filter (fun a => !((evictFrom cfg (sortByCreatedAt f) t).1.contains a.1)) :=
    removeKeys_eq_filter _ f hnd
  obtain ⟨n, hn, hev⟩ := evictFrom_take cfg (sortByCreatedAt f) t
  have hcont : (evictFrom cfg (sortByCreatedAt f) t).1.contains e.1 = true := by
    cases hb : (evictFrom cfg (sortByCreatedAt f) t).1.contains e.1 with
    | true => rfl
    | false =>
      exfalso
      apply hnot
      rw [hfinal]
      exact List.mem_filter.mpr ⟨he, by simp only [hb, Bool.not_false]⟩
  have he1 : e.1 ∈ (evictFrom cfg (sortByCreatedAt f) t).1 := by simpa using hcont
  rw [hev] at he1
  obtain ⟨q, hq, hq1⟩ := List.mem_map.mp he1
  have hqf : q ∈ f := hperm.subset (List.mem_of_mem_take hq)
  have hqe : q = e := keys_entry_inj hnd hqf he hq1
  have he2p := List.mem_filter.mp (hfinal ▸ he2)
  have he2notin : e2.1 ∉ (evictFrom cfg (sortByCreatedAt f) t).1 := by
    simpa using he2p.2
  have he2s : e2 ∈ sortByCreatedAt f := hperm.mem_iff.mpr he2p.1
  rw [← List.take_append_drop n (sortByCreatedAt f)] at he2s
  rcases List.mem_append.mp he2s with hmem | hmem
  · exact absurd (by rw [hev]; exact List.mem_map_of_mem Prod.fst hmem) he2notin
  · have hpw := sortByCreatedAt_pairwise f
    rw [← List.take_append_drop n (sortByCreatedAt f)] at hpw
    exact (List.pairwise_append.mp hpw).2.2 e (hqe ▸ hq) e2 hmem

/-- If the eviction loop consumed every sorted entry, nothing survives. -/
theorem evict_all_consumed (cfg : StorageConfig) (f : List (String × StoredObject))
    (t : Nat) (hnd : (f.map Prod.fst).Nodup)
    (hall : (evictFrom cfg (sortByCreatedAt f) t).1 = (sortByCreatedAt f).map Prod.fst) :
    removeKeys (evictFrom cfg (sortByCreatedAt f) t).1 f = [] := by
  have hperm := sortByCreatedAt_perm f
  rw [removeKeys_eq_filter _ f hnd]
  rw [List.filter_eq_nil_iff]
  intro a ha
  have hmem : a.1 ∈ (evictFrom cfg (sortByCreatedAt f) t).1 := by
    rw [hall]
    exact List.mem_map_of_mem Prod.fst (hperm.mem_iff.mpr ha)
  simp [hmem]

/-- C5.  Cleanup first removes exactly the expired entries; if the
tracker was within the budget no further entry is removed (and the tracker is
untouched); if it was above the budget, the eviction loop runs and leaves the
tracker at most 90% of the budget unless it emptied the store; and a
non-expired entry that is evicted is never newer than any surviving entry
(oldest-first order). -/
theorem c5_cleanup_policy (cfg : StorageConfig) (st : StorageState) (now : Int)
    (hwf : StorageWF st) :
    (∀ e ∈ (performCleanup cfg now st).store, isExpired now e.2 = false) ∧
    (st.sizeTracker ≤ cfg.maxStorageSize * 1048576 →
      (performCleanup cfg now st).store
        = st.store.filter (fun e => !isExpired now e.2) ∧
      (performCleanup cfg now st).sizeTracker = st.sizeTracker) ∧
    (st.sizeTracker > cfg.maxStorageSize * 1048576 →
      10 * (performCleanup cfg now st).sizeTracker
          ≤ 9 * (cfg.maxStorageSize * 1048576) ∨
      (performCleanup cfg now st).store = []) ∧
    (∀ e ∈ st.store, isExpired now e.2 = false →
      e ∉ (performCleanup cfg now st).store →
      ∀ e2 ∈ (performCleanup cfg now st).store, e.2.createdAt ≤ e2.2.createdAt) := by
  have hwf2 : (st.store.map Prod.fst).Nodup := hwf
  have hstore1 : removeKeys (expiredKeys now st.store) st.store
      = st.store.filter (fun e => !isExpired now e.2) :=
    removeKeys_expiredKeys now st.store hwf2
  have hnd1 : ((st.store.filter (fun e => !isExpired now e.2)).map Prod.fst).Nodup :=
    ((List.filter_sublist st.store).map Prod.fst).nodup hwf2
  by_cases hgt : st.sizeTracker > cfg.maxStorageSize * 1048576
  · have heq := performCleanup_eq_of_gt cfg now st hgt
    rw [heq]
    dsimp only
    rw [hstore1]
    refine ⟨?_, ?_, ?_, ?_⟩
    · intro e he
      have hef : e ∈ st.store.filter (fun e => !isExpired now e.2) :=
        (removeKeys_sublist _ _).subset he
      have := List.of_mem_filter hef
      simpa using this
    · intro hle
      exact absurd hgt (by omega)
    · intro _
      rcases evictFrom_consume_or_target cfg
          (sortByCreatedAt (st.store.filter (fun e => !isExpired now e.2)))
          st.sizeTracker with h | h
      · right
        exact evict_all_consumed cfg _ _ hnd1 h
      · left
        exact h
    · intro e he hexp hnot e2 he2
      have hef : e ∈ st.store.filter (fun e => !isExpired now e.2) :=
        List.mem_filter.mpr ⟨he, by simp [hexp]⟩
      exact evict_oldest_first cfg _ _ hnd1 e e2 hef hnot he2
  · have heq := performCleanup_eq_of_le cfg now st hgt
    rw [heq]
    dsimp only
    rw [hstore1]
    refine ⟨?_, fun _ => ⟨rfl, rfl⟩, fun h => absurd h hgt, ?_⟩
    · intro e he
      have := List.of_mem_filter he
      simpa using this
    · intro e he hexp hnot e2 _
      exact absurd (List.mem_filter.mpr ⟨he, by simp [hexp]⟩) hnot

end PersistentStorage

namespace PersistentStorage

/-- C5 witness: a concrete over-budget cleanup (zero budget, one expired and
two live entries) instantiating the policy theorem. -/
theorem c5_cleanup_policy_witness :
    StorageWF ⟨[("a", ⟨"1", "a", .raw "aaaa", 10, 0, 1, [], none⟩),
                ("b", ⟨"2", "b", .raw "bbbb", 5, 0, 1, [], none⟩),
                ("c", ⟨"3", "c", .raw "cc", 7, 0, 1, [], some 1⟩)], 10, []⟩ ∧
    ((∀ e ∈ (performCleanup ⟨false, 3, 60000, 0, false, 300000⟩ 100
        ⟨[("a", ⟨"1", "a", .raw "aaaa", 10, 0, 1, [], none⟩),
          ("b", ⟨"2", "b", .raw "bbbb", 5, 0, 1, [], none⟩),
          ("c", ⟨"3", "c", .raw "cc", 7, 0, 1, [], some 1⟩)], 10, []⟩).store,
        isExpired 100 e.2 = false) ∧
    ((⟨[("a", ⟨"1", "a", .raw "aaaa", 10, 0, 1, [], none⟩),
        ("b", ⟨"2", "b", .raw "bbbb", 5, 0, 1, [], none⟩),
        ("c", ⟨"3", "c", .raw "cc", 7, 0, 1, [], some 1⟩)], 10, []⟩ : StorageState).sizeTracker
        ≤ (⟨false, 3, 60000, 0, false, 300000⟩ : StorageConfig).maxStorageSize * 1048576 →
      (performCleanup ⟨false, 3, 60000, 0, false, 300000⟩ 100
        ⟨[("a", ⟨"1", "a", .raw "aaaa", 10, 0, 1, [], none⟩),
          ("b", ⟨"2", "b", .raw "bbbb", 5, 0, 1, [], none⟩),
          ("c", ⟨"3", "c", .raw "cc", 7, 0, 1, [], some 1⟩)], 10, []⟩).store
        = (⟨[("a", ⟨"1", "a", .raw "aaaa", 10, 0, 1, [], none⟩),
            ("b", ⟨"2", "b", .raw "bbbb", 5, 0, 1, [], none⟩),
            ("c", ⟨"3", "c", .raw "cc", 7, 0, 1, [], some 1⟩)], 10, []⟩ : StorageState).store.filter
            (fun e => !isExpired 100 e.2) ∧
      (performCleanup ⟨false, 3, 60000, 0, false, 300000⟩ 100
        ⟨[("a", ⟨"1", "a", .raw "aaaa", 10, 0, 1, [], none⟩),
          ("b", ⟨"2", "b", .raw "bbbb", 5, 0, 1, [], none⟩),
          ("c", ⟨"3", "c", .raw "cc", 7, 0, 1, [], some 1⟩)], 10, []⟩).sizeTracker
        = (⟨[("a", ⟨"1", "a", .raw "aaaa", 10, 0, 1, [], none⟩),
            ("b", ⟨"2", "b", .raw "bbbb", 5, 0, 1, [], none⟩),
            ("c", ⟨"3", "c", .raw "cc", 7, 0, 1, [], some 1⟩)], 10, []⟩ : StorageState).sizeTracker) ∧
    ((⟨[("a", ⟨"1", "a", .raw "aaaa", 10, 0, 1, [], none⟩),
        ("b", ⟨"2", "b", .raw "bbbb", 5, 0, 1, [], none⟩),
        ("c", ⟨"3", "c", .raw "cc", 7, 0, 1, [], some 1⟩)], 10, []⟩ : StorageState).sizeTracker
        > (⟨false, 3, 60000, 0, false, 300000⟩ : StorageConfig).maxStorageSize * 1048576 →
      10 * (performCleanup ⟨false, 3, 60000, 0, false, 300000⟩ 100
        ⟨[("a", ⟨"1", "a", .raw "aaaa", 10, 0, 1, [], none⟩),
          ("b", ⟨"2", "b", .raw "bbbb", 5, 0, 1, [], none⟩),
          ("c", ⟨"3", "c", .raw "cc", 7, 0, 1, [], some 1⟩)], 10, []⟩).sizeTracker
          ≤ 9 * ((⟨false, 3, 60000, 0, false, 300000⟩ : StorageConfig).maxStorageSize * 1048576) ∨
      (performCleanup ⟨false, 3, 60000, 0, false, 300000⟩ 100
        ⟨[("a", ⟨"1", "a", .raw "aaaa", 10, 0, 1, [], none⟩),
          ("b", ⟨"2", "b", .raw "bbbb", 5, 0, 1, [], none⟩),
          ("c", ⟨"3", "c", .raw "cc", 7, 0, 1, [], some 1⟩)], 10, []⟩).store = []) ∧
    (∀ e ∈ (⟨[("a", ⟨"1", "a", .raw "aaaa", 10, 0, 1, [], none⟩),
        ("b", ⟨"2", "b", .raw "bbbb", 5, 0, 1, [], none⟩),
        ("c", ⟨"3", "c", .raw "cc", 7, 0, 1, [], some 1⟩)], 10, []⟩ : StorageState).store,
        isExpired 100 e.2 = false →
      e ∉ (performCleanup ⟨false, 3, 60000, 0, false, 300000⟩ 100
        ⟨[("a", ⟨"1", "a", .raw "aaaa", 10, 0, 1, [], none⟩),
          ("b", ⟨"2", "b", .raw "bbbb", 5, 0, 1, [], none⟩),
          ("c", ⟨"3", "c", .raw "cc", 7, 0, 1, [], some 1⟩)], 10, []⟩).store →
      ∀ e2 ∈ (performCleanup ⟨false, 3, 60000, 0, false, 300000⟩ 100
        ⟨[("a", ⟨"1", "a", .raw "aaaa", 10, 0, 1, [], none⟩),
          ("b", ⟨"2", "b", .raw "bbbb", 5, 0, 1, [], none⟩),
          ("c", ⟨"3", "c", .raw "cc", 7, 0, 1, [], some 1⟩)], 10, []⟩).store,
        e.2.createdAt ≤ e2.2.createdAt)) :=
  ⟨by decide,
   c5_cleanup_policy ⟨false, 3, 60000, 0, false, 300000⟩
     ⟨[("a", ⟨"1", "a", .raw "aaaa", 10, 0, 1, [], none⟩),
       ("b", ⟨"2", "b", .raw "bbbb", 5, 0, 1, [], none⟩),
       ("c", ⟨"3", "c", .raw "cc", 7, 0, 1, [], some 1⟩)], 10, []⟩ 100 (by decide)⟩

end PersistentStorage
